import Mathlib

/-
Verification of the configuration resolution and persistence engine of
claude-code-config-manage-gui. The engine lives in claude_config.rs, present
in two near-identical copies (claude-config-cli and src-tauri); the
definitions below embed its data model and operations. Filesystem contents
are modelled explicitly by an FSState record; JSON documents are modelled by
an inductive Json type whose objects are association lists with key-based
lookup, matching the map semantics of serde_json objects. Parsing and
serialization of concrete bytes are abstracted: a structured file is absent,
present-but-invalid, or present and parsing to a given document, and a
written document reads back as itself (serde_json pretty-print round-trips).
-/

namespace ClaudeConfig

/-- Model of a serde_json Value, the document type manipulated by
claude_config.rs. Objects are association lists. -/
inductive Json where
  | null : Json
  | bool : Bool → Json
  | num : Int → Json
  | str : String → Json
  | arr : List Json → Json
  | obj : List (String × Json) → Json

/-- Lookup of a key in an object field list, as serde_json Map get. -/
def objGet : List (String × Json) → String → Option Json
  | [], _ => none
  | (a, b) :: rest, k => if a = k then some b else objGet rest k

/-- Insert-or-replace of a key in an object field list, as serde_json Map
insert (also the index-assignment operator on Value objects). -/
def objSet : List (String × Json) → String → Json → List (String × Json)
  | [], k, v => [(k, v)]
  | (a, b) :: rest, k, v => if a = k then (k, v) :: rest else (a, b) :: objSet rest k v

/-- Removal of a key from an object field list, as serde_json Map remove. -/
def objRemove : List (String × Json) → String → List (String × Json)
  | [], _ => []
  | (a, b) :: rest, k => if a = k then objRemove rest k else (a, b) :: objRemove rest k

/-- Models Value.get with a string index: a value only on objects. -/
def jsonGet : Json → String → Option Json
  | Json.obj fields, k => objGet fields k
  | _, _ => none

/-- Whitespace test used by the model of str::trim. -/
def isWs (c : Char) : Bool := c == ' ' || c == '\t' || c == '\n' || c == '\r'

/-- Models Rust str::trim at the character-list level. -/
def trimChars (l : List Char) : List Char :=
  ((l.dropWhile isWs).reverse.dropWhile isWs).reverse

/-- Models Rust str::trim. -/
def rustTrim (s : String) : String := String.mk (trimChars s.data)

/-- Models Rust str::starts_with for a string pattern. -/
def rustStartsWith (s pat : String) : Bool := pat.data.isPrefixOf s.data

/-- Accumulator loop for the model of str::split on the equals sign. -/
def splitEqChars : List Char → List Char → List String
  | [], acc => [String.mk acc.reverse]
  | c :: rest, acc =>
    if c = '=' then String.mk acc.reverse :: splitEqChars rest []
    else splitEqChars rest (c :: acc)

/-- Models Rust split of a line on the equals sign character: the list of
fields, in order. An input without an equals sign yields one field. -/
def rustSplitEq (s : String) : List String := splitEqChars s.data []

/-- The value a recognized line contributes in parse_claude_md: field number
one of the split on the equals sign (empty when absent), trimmed. This is
the text between the first and the second equals sign of the line. -/
def lineValue (line : String) : String := rustTrim ((rustSplitEq line).getD 1 "")

/-- One iteration of the line loop of parse_claude_md: the if/else-if chain
over the three recognized key prefixes, updating the env accumulator. -/
def mdStep (acc : List (String × Json)) (line : String) : List (String × Json) :=
  if rustStartsWith (rustTrim line) "ANTHROPIC_API_KEY=" then
    objSet acc "ANTHROPIC_API_KEY" (Json.str (lineValue line))
  else if rustStartsWith (rustTrim line) "ANTHROPIC_BASE_URL=" then
    objSet acc "ANTHROPIC_BASE_URL" (Json.str (lineValue line))
  else if rustStartsWith (rustTrim line) "CLAUDE_API_KEY=" then
    objSet acc "CLAUDE_API_KEY" (Json.str (lineValue line))
  else acc

/-- The line loop of parse_claude_md over the remaining lines. -/
def parse_md_lines : List String → List (String × Json) → List (String × Json)
  | [], acc => acc
  | line :: rest, acc => parse_md_lines rest (mdStep acc line)

/-- Models parse_claude_md. The file content is modelled as its list of
lines. An empty env accumulator yields the empty document; otherwise the
document has the single key env holding the accumulator. -/
def parse_claude_md (lines : List String) : Json :=
  let env := parse_md_lines lines []
  if env.isEmpty then Json.obj [] else Json.obj [("env", Json.obj env)]

/-- Contents of a structured (JSON) settings file: absent, present but not
valid JSON, or present and parsing to the given document. -/
inductive FileContent where
  | absent : FileContent
  | invalid : FileContent
  | valid : Json → FileContent

/-- A fallback source as dispatched by read_settings: a structured file, or
the line-oriented CLAUDE.md document given by its lines when present. -/
inductive AltFile where
  | structured : FileContent → AltFile
  | lineOriented : Option (List String) → AltFile

/-- Filesystem state relevant to the engine, for one root directory: the
primary file .claude/settings.local.json, the alternative sources
.claude/settings.json, .claude/claude_config.json, .claude_config and
CLAUDE.md, and the template file CLAUDE.local.md (content as a string). -/
structure FSState where
  settingsLocal : FileContent
  settingsJson : FileContent
  claudeConfigJson : FileContent
  dotClaudeConfig : FileContent
  claudeMd : Option (List String)
  claudeLocalMd : Option String

/-- Models get_alternative_settings_files: the four fallback sources in
their declared order, paired with their content in the given state. -/
def get_alternative_settings_files (fs : FSState) : List AltFile :=
  [AltFile.structured fs.settingsJson,
   AltFile.structured fs.claudeConfigJson,
   AltFile.structured fs.dotClaudeConfig,
   AltFile.lineOriented fs.claudeMd]

/-- Models the fallback loop of read_settings: an absent file is skipped; a
structured file returns its document on a successful parse and is silently
skipped on a parse failure; the line-oriented CLAUDE.md returns the
parse_claude_md result outright; an exhausted list yields the empty
document. -/
def scanAlts : List AltFile → Json
  | [] => Json.obj []
  | AltFile.structured (FileContent.valid j) :: _ => j
  | AltFile.structured FileContent.invalid :: rest => scanAlts rest
  | AltFile.structured FileContent.absent :: rest => scanAlts rest
  | AltFile.lineOriented (some lines) :: _ => parse_claude_md lines
  | AltFile.lineOriented none :: rest => scanAlts rest

/-- Models read_settings: when the primary file exists its parse is
authoritative, a parse failure being a hard error; otherwise the
alternatives are scanned in order. -/
def read_settings (fs : FSState) : Except Unit Json :=
  match fs.settingsLocal with
  | FileContent.valid j => Except.ok j
  | FileContent.invalid => Except.error ()
  | FileContent.absent => Except.ok (scanAlts (get_alternative_settings_files fs))

/-- Models write_settings: the document is serialized to the primary file,
fully overwriting it (ensure_claude_dir and pretty-printing abstracted). -/
def write_settings (fs : FSState) (settings : Json) : FSState :=
  { fs with settingsLocal := FileContent.valid settings }

/-- Modelled from the spec: the fixed template payload provisioned next to
the settings. In claude-config-cli it is embedded in the binary at compile
time from resources/config/CLAUDE.local.md; that resource file is not among
the analysed sources, so its bytes are abstracted by this constant. -/
def CLAUDE_LOCAL_MD_CONTENT : String := "CLAUDE.local.md template payload"

/-- Models copy_claude_local_md: writes the fixed payload to CLAUDE.local.md
at the root, unconditionally overwriting any existing file. The Boolean
fault flag injects a filesystem failure of this one step, which the source
surfaces as an error. -/
def copy_claude_local_md (tfail : Bool) (fs : FSState) : Except Unit FSState :=
  if tfail then Except.error ()
  else Except.ok { fs with claudeLocalMd := some CLAUDE_LOCAL_MD_CONTENT }

/-- Models the env_config block built by update_env_config_with_options:
API key and auth token both set to the token, the base URL, and the
IS_SANDBOX marker inserted only in sandbox mode. -/
def build_env_config (token base_url : String) (is_sandbox : Bool) : Json :=
  let e := [("ANTHROPIC_API_KEY", Json.str token),
            ("ANTHROPIC_AUTH_TOKEN", Json.str token),
            ("ANTHROPIC_BASE_URL", Json.str base_url)]
  if is_sandbox then Json.obj (objSet e "IS_SANDBOX" (Json.str "1")) else Json.obj e

/-- Models update_env_config_with_options: load the document, normalize a
non-object root to the empty object, replace its env entry wholesale with
the new credential block, write the settings back, then provision the
template. The result pairs the returned value with the filesystem state
after the call, so that the effects of steps completed before a later
failure stay visible. -/
def update_env_config_with_options (tfail : Bool) (fs : FSState)
    (token base_url : String) (is_sandbox : Bool) : Except Unit Bool × FSState :=
  match read_settings fs with
  | Except.error e => (Except.error e, fs)
  | Except.ok settings0 =>
    let root : List (String × Json) :=
      match settings0 with
      | Json.obj fields => fields
      | _ => []
    let settings1 := Json.obj (objSet root "env" (build_env_config token base_url is_sandbox))
    let fs1 := write_settings fs settings1
    match copy_claude_local_md tfail fs1 with
    | Except.error e => (Except.error e, fs1)
    | Except.ok fs2 => (Except.ok true, fs2)

/-- Helper of the model of get_env_config: the entries of an object whose
values are strings, in order, as a flat string-to-string list. -/
def collectStrings : List (String × Json) → List (String × String)
  | [] => []
  | (k, Json.str s) :: rest => (k, s) :: collectStrings rest
  | _ :: rest => collectStrings rest

/-- Models get_env_config: loads the document and copies every string-valued
entry of its env object into a flat map; no env object yields the empty
map. -/
def get_env_config (fs : FSState) : Except Unit (List (String × String)) :=
  match read_settings fs with
  | Except.error e => Except.error e
  | Except.ok settings =>
    Except.ok (match jsonGet settings "env" with
      | some (Json.obj envFields) => collectStrings envFields
      | _ => [])

/-- The three removals clear_env_config performs on the env object. -/
def remove_cred_keys (env : List (String × Json)) : List (String × Json) :=
  objRemove (objRemove (objRemove env "ANTHROPIC_API_KEY") "ANTHROPIC_AUTH_TOKEN")
    "ANTHROPIC_BASE_URL"

/-- Models writing a new value for the key env through the mutable borrow
obtained from settings.get_mut: a replacement on objects, the identity
otherwise (the borrow only exists on objects). -/
def jsonSetEnv : Json → Json → Json
  | Json.obj fields, newEnv => Json.obj (objSet fields "env" newEnv)
  | j, _ => j

/-- Models the in-memory transformation of clear_env_config. A none result
models a panic: the unchecked unwrap of settings.as_object_mut that the
source performs when env became empty after the removals. -/
def clear_env_settings (settings : Json) : Option Json :=
  match jsonGet settings "env" with
  | some (Json.obj envFields) =>
    let pruned := remove_cred_keys envFields
    if pruned.isEmpty then
      match jsonSetEnv settings (Json.obj pruned) with
      | Json.obj rootFields => some (Json.obj (objRemove rootFields "env"))
      | _ => none
    else some (jsonSetEnv settings (Json.obj pruned))
  | _ => some settings

/-- Models clear_env_config: load, transform in memory, write back. A none
result models a panic; the template file is never written by this path. -/
def clear_env_config (fs : FSState) : Option (Except Unit Bool × FSState) :=
  match read_settings fs with
  | Except.error e => some (Except.error e, fs)
  | Except.ok settings =>
    match clear_env_settings settings with
    | none => none
    | some doc => some (Except.ok true, write_settings fs doc)

/-- Spec-side reading of the line recognition rule, with the amended value
rule: the key a line contributes under the if/else-if chain of the source,
and its value, the trimmed text between the first and second equals sign. -/
def mdRecognize (line : String) : Option (String × String) :=
  if rustStartsWith (rustTrim line) "ANTHROPIC_API_KEY=" then
    some ("ANTHROPIC_API_KEY", lineValue line)
  else if rustStartsWith (rustTrim line) "ANTHROPIC_BASE_URL=" then
    some ("ANTHROPIC_BASE_URL", lineValue line)
  else if rustStartsWith (rustTrim line) "CLAUDE_API_KEY=" then
    some ("CLAUDE_API_KEY", lineValue line)
  else none

/-- Spec-side: the value of the last line contributing the key k, later
lines overwriting earlier ones. -/
def mdLastValue : List String → String → Option String
  | [], _ => none
  | line :: rest, k =>
    match mdLastValue rest k with
    | some v => some v
    | none =>
      match mdRecognize line with
      | some (a, v) => if a = k then some v else none
      | none => none

/-- First-biased choice on options, used to phrase accumulator lemmas. -/
def optOr : Option α → Option α → Option α
  | some v, _ => some v
  | none, b => b

theorem optOr_none_right (a : Option α) : optOr a none = a := by
  cases a <;> rfl

theorem objGet_objSet (l : List (String × Json)) (k : String) (v : Json) (q : String) :
    objGet (objSet l k v) q = if k = q then some v else objGet l q := by
  induction l with
  | nil => by_cases h : k = q <;> simp [objSet, objGet, h]
  | cons p t ih =>
    obtain ⟨a, b⟩ := p
    by_cases hak : a = k
    · subst hak
      by_cases haq : a = q <;> simp [objSet, objGet, haq]
    · by_cases haq : a = q
      · subst haq
        have hka : ¬k = a := fun hh => hak hh.symm
        simp [objSet, objGet, hak, hka]
      · simp [objSet, objGet, hak, haq, ih]

theorem objGet_objRemove (l : List (String × Json)) (k q : String) :
    objGet (objRemove l k) q = if k = q then none else objGet l q := by
  induction l with
  | nil => by_cases h : k = q <;> simp [objRemove, objGet, h]
  | cons p t ih =>
    obtain ⟨a, b⟩ := p
    by_cases hak : a = k
    · subst hak
      by_cases haq : a = q
      · subst haq
        simp [objRemove, objGet, ih]
      · simp [objRemove, objGet, haq, ih]
    · by_cases haq : a = q
      · subst haq
        have hka : ¬k = a := fun hh => hak hh.symm
        simp [objRemove, objGet, hak, hka]
      · simp [objRemove, objGet, hak, haq, ih]

theorem objSet_ne_nil (l : List (String × Json)) (k : String) (v : Json) :
    objSet l k v ≠ [] := by
  cases l with
  | nil => simp [objSet]
  | cons p t =>
    obtain ⟨a, b⟩ := p
    by_cases h : a = k <;> simp [objSet, h]

theorem mdStep_eq (acc : List (String × Json)) (line : String) :
    mdStep acc line =
      match mdRecognize line with
      | some (k, v) => objSet acc k (Json.str v)
      | none => acc := by
  unfold mdStep mdRecognize
  split_ifs <;> rfl

theorem mdStep_ne_nil (acc : List (String × Json)) (line : String) (h : acc ≠ []) :
    mdStep acc line ≠ [] := by
  unfold mdStep
  split_ifs <;> first | exact objSet_ne_nil _ _ _ | exact h

theorem parse_md_lines_ne_nil (lines : List String) :
    ∀ acc, acc ≠ [] → parse_md_lines lines acc ≠ [] := by
  induction lines with
  | nil => intro acc h; exact h
  | cons line rest ih =>
    intro acc h
    exact ih (mdStep acc line) (mdStep_ne_nil acc line h)

theorem parse_md_lines_nil_iff (lines : List String) :
    parse_md_lines lines [] = [] ↔ ∀ line ∈ lines, mdRecognize line = none := by
  induction lines with
  | nil => simp [parse_md_lines]
  | cons line rest ih =>
    rw [parse_md_lines, mdStep_eq]
    cases h : mdRecognize line with
    | none => simpa [h] using ih
    | some kv =>
      obtain ⟨k, v⟩ := kv
      constructor
      · intro hcontra
        exact absurd hcontra (parse_md_lines_ne_nil rest _ (objSet_ne_nil _ _ _))
      · intro hall
        have hl := hall line (by simp)
        rw [h] at hl
        cases hl

theorem parse_md_lines_get (lines : List String) :
    ∀ (acc : List (String × Json)) (k : String),
      objGet (parse_md_lines lines acc) k =
        optOr ((mdLastValue lines k).map Json.str) (objGet acc k) := by
  induction lines with
  | nil => intro acc k; simp [parse_md_lines, mdLastValue, optOr]
  | cons line rest ih =>
    intro acc k
    rw [parse_md_lines, ih, mdStep_eq]
    cases h : mdRecognize line with
    | none =>
      cases hr : mdLastValue rest k <;> simp [mdLastValue, h, hr, optOr]
    | some kv =>
      obtain ⟨a, v⟩ := kv
      cases hr : mdLastValue rest k with
      | some w => simp [mdLastValue, h, hr, optOr]
      | none =>
        by_cases hak : a = k
        · subst hak
          simp [mdLastValue, h, hr, optOr, objGet_objSet]
        · simp [mdLastValue, h, hr, optOr, objGet_objSet, hak]

theorem clear_env_settings_isSome (s : Json) : ∃ d, clear_env_settings s = some d := by
  cases s with
  | obj fields =>
    cases hg : objGet fields "env" with
    | none => exact ⟨Json.obj fields, by simp [clear_env_settings, jsonGet, hg]⟩
    | some j =>
      cases j with
      | obj envFields =>
        by_cases hp : (remove_cred_keys envFields).isEmpty
        · exact ⟨Json.obj (objRemove (objSet fields "env"
              (Json.obj (remove_cred_keys envFields))) "env"),
            by simp [clear_env_settings, jsonGet, hg, hp, jsonSetEnv]⟩
        · exact ⟨Json.obj (objSet fields "env" (Json.obj (remove_cred_keys envFields))),
            by simp [clear_env_settings, jsonGet, hg, hp, jsonSetEnv]⟩
      | null => exact ⟨Json.obj fields, by simp [clear_env_settings, jsonGet, hg]⟩
      | bool b => exact ⟨Json.obj fields, by simp [clear_env_settings, jsonGet, hg]⟩
      | num n => exact ⟨Json.obj fields, by simp [clear_env_settings, jsonGet, hg]⟩
      | str t => exact ⟨Json.obj fields, by simp [clear_env_settings, jsonGet, hg]⟩
      | arr xs => exact ⟨Json.obj fields, by simp [clear_env_settings, jsonGet, hg]⟩
  | null => exact ⟨Json.null, by simp [clear_env_settings, jsonGet]⟩
  | bool b => exact ⟨Json.bool b, by simp [clear_env_settings, jsonGet]⟩
  | num n => exact ⟨Json.num n, by simp [clear_env_settings, jsonGet]⟩
  | str t => exact ⟨Json.str t, by simp [clear_env_settings, jsonGet]⟩
  | arr xs => exact ⟨Json.arr xs, by simp [clear_env_settings, jsonGet]⟩

/-- C3: when the primary file .claude/settings.local.json exists but does not
parse as JSON, read_settings returns an error, regardless of which
alternative source files exist with whatever valid content. -/
theorem corrupt_primary_is_hard_error (fs : FSState)
    (h : fs.settingsLocal = FileContent.invalid) :
    read_settings fs = Except.error () := by
  unfold read_settings
  rw [h]

/-- Witness for corrupt_primary_is_hard_error: a corrupt primary file next to
a valid alternative still fails the load. -/
theorem corrupt_primary_is_hard_error_witness :
    read_settings ⟨FileContent.invalid, FileContent.valid (Json.obj [("a", Json.str "b")]),
      FileContent.absent, FileContent.absent, none, none⟩ = Except.error () :=
  corrupt_primary_is_hard_error _ rfl

/-- C4: with the primary file absent, read_settings scans exactly the
alternatives settings.json, claude_config.json, .claude_config, CLAUDE.md in
that order; a structured alternative that parses is returned immediately
without scanning further, a parse failure or an absent file is silently
skipped, the line-oriented CLAUDE.md returns its parse result, and an
exhausted list yields the empty mapping. -/
theorem alternatives_scanned_in_order (fs : FSState)
    (h : fs.settingsLocal = FileContent.absent) :
    read_settings fs = Except.ok (scanAlts
      [AltFile.structured fs.settingsJson, AltFile.structured fs.claudeConfigJson,
       AltFile.structured fs.dotClaudeConfig, AltFile.lineOriented fs.claudeMd]) ∧
    (∀ (j : Json) (rest : List AltFile),
      scanAlts (AltFile.structured (FileContent.valid j) :: rest) = j) ∧
    (∀ rest : List AltFile,
      scanAlts (AltFile.structured FileContent.invalid :: rest) = scanAlts rest) ∧
    (∀ rest : List AltFile,
      scanAlts (AltFile.structured FileContent.absent :: rest) = scanAlts rest) ∧
    (∀ (lines : List String) (rest : List AltFile),
      scanAlts (AltFile.lineOriented (some lines) :: rest) = parse_claude_md lines) ∧
    (∀ rest : List AltFile,
      scanAlts (AltFile.lineOriented none :: rest) = scanAlts rest) ∧
    scanAlts [] = Json.obj [] := by
  refine ⟨?_, fun j rest => rfl, fun rest => rfl, fun rest => rfl,
    fun lines rest => rfl, fun rest => rfl, rfl⟩
  unfold read_settings get_alternative_settings_files
  rw [h]

/-- Witness for alternatives_scanned_in_order: with the primary absent, a
corrupt first alternative is skipped and the second one is returned. -/
theorem alternatives_scanned_in_order_witness :
    read_settings ⟨FileContent.absent, FileContent.invalid,
      FileContent.valid (Json.obj [("a", Json.str "b")]), FileContent.absent, none, none⟩ =
      Except.ok (scanAlts
        [AltFile.structured FileContent.invalid,
         AltFile.structured (FileContent.valid (Json.obj [("a", Json.str "b")])),
         AltFile.structured FileContent.absent, AltFile.lineOriented none]) :=
  (alternatives_scanned_in_order ⟨FileContent.absent, FileContent.invalid,
    FileContent.valid (Json.obj [("a", Json.str "b")]), FileContent.absent, none, none⟩ rfl).1

/-- C5, counterexample to the stated value rule: the source splits a
recognized line on every equals sign and takes field number one, so the
value stops at the second equals sign instead of being the whole remainder
of the line after the first one. On the line ANTHROPIC_API_KEY=a=b the
parsed value is a, whereas the claim predicts a=b. -/
theorem parse_claude_md_value_stops_at_second_eq :
    parse_claude_md ["ANTHROPIC_API_KEY=a=b"] =
      Json.obj [("env", Json.obj [("ANTHROPIC_API_KEY", Json.str "a")])] ∧
    ("a" : String) ≠ "a=b" :=
  ⟨rfl, by decide⟩

/-- C5, amended: each line whose trimmed content starts with one of the three
recognized prefixes contributes an entry whose value is the trimmed text
between the first and the second equals sign of the line (the whole
remainder when the line has no second equals sign, empty when nothing
follows the first), later lines with the same key overwriting earlier ones;
with zero matching lines the result is the empty mapping, otherwise a
mapping with the single key env holding the matched entries. -/
theorem parse_claude_md_amended (lines : List String) :
    (parse_claude_md lines = Json.obj [] ↔ ∀ line ∈ lines, mdRecognize line = none) ∧
    ((∃ line ∈ lines, mdRecognize line ≠ none) →
      ∃ env, parse_claude_md lines = Json.obj [("env", Json.obj env)] ∧
        env ≠ [] ∧
        ∀ k, objGet env k = (mdLastValue lines k).map Json.str) := by
  constructor
  · cases hE : parse_md_lines lines [] with
    | nil =>
      have h1 : parse_claude_md lines = Json.obj [] := by
        unfold parse_claude_md
        rw [hE]
        rfl
      simp only [h1, true_iff]
      exact (parse_md_lines_nil_iff lines).mp hE
    | cons p t =>
      have h1 : parse_claude_md lines = Json.obj [("env", Json.obj (p :: t))] := by
        unfold parse_claude_md
        rw [hE]
        rfl
      rw [h1]
      constructor
      · intro hcontra
        simp at hcontra
      · intro hall
        have hnil := (parse_md_lines_nil_iff lines).mpr hall
        rw [hE] at hnil
        cases hnil
  · intro hex
    obtain ⟨line, hmem, hrec⟩ := hex
    have hne : parse_md_lines lines [] ≠ [] := by
      intro hnil
      exact hrec ((parse_md_lines_nil_iff lines).mp hnil line hmem)
    refine ⟨parse_md_lines lines [], ?_, hne, ?_⟩
    · unfold parse_claude_md
      cases hE : parse_md_lines lines [] with
      | nil => exact absurd hE hne
      | cons p t => rfl
    · intro k
      have hg := parse_md_lines_get lines [] k
      rw [show objGet ([] : List (String × Json)) k = none from rfl, optOr_none_right] at hg
      exact hg

/-- Witness for parse_claude_md_amended: a single recognized line yields a
mapping with one env entry, characterized by mdLastValue. -/
theorem parse_claude_md_amended_witness :
    ∃ env, parse_claude_md ["ANTHROPIC_API_KEY=abc"] = Json.obj [("env", Json.obj env)] ∧
      env ≠ [] ∧
      ∀ k, objGet env k = (mdLastValue ["ANTHROPIC_API_KEY=abc"] k).map Json.str :=
  (parse_claude_md_amended ["ANTHROPIC_API_KEY=abc"]).2
    ⟨"ANTHROPIC_API_KEY=abc", by simp, by decide⟩

/-- C10: clear_env_config never panics. The unchecked unwrap of the root
document as an object, modelled by a none result, is unreachable: the env
borrow it guards only exists when the root document is an object. -/
theorem clear_env_config_no_panic (fs : FSState) :
    (clear_env_config fs).isSome = true := by
  unfold clear_env_config
  cases hr : read_settings fs with
  | error e => rfl
  | ok s0 =>
    obtain ⟨d, hd⟩ := clear_env_settings_isSome s0
    simp [hd]

/-- C1: applying credentials and then reading them back on the same root
yields exactly the three credential entries, with the token under both the
API key and the auth token, and additionally IS_SANDBOX set to the string 1
exactly when sandbox mode was requested. -/
theorem apply_then_get_returns_exact_credentials
    (fs fs' : FSState) (token base_url : String) (sandbox b : Bool)
    (h : update_env_config_with_options false fs token base_url sandbox =
      (Except.ok b, fs')) :
    get_env_config fs' = Except.ok
      (("ANTHROPIC_API_KEY", token) :: ("ANTHROPIC_AUTH_TOKEN", token) ::
        ("ANTHROPIC_BASE_URL", base_url) ::
        (if sandbox then [("IS_SANDBOX", "1")] else [])) := by
  unfold update_env_config_with_options at h
  cases hr : read_settings fs with
  | error e =>
    rw [hr] at h
    simp at h
  | ok s0 =>
    rw [hr] at h
    simp only [copy_claude_local_md, write_settings, if_neg Bool.false_ne_true,
      Prod.mk.injEq] at h
    obtain ⟨hb, hfs⟩ := h
    subst hfs
    unfold get_env_config read_settings
    simp only [jsonGet, objGet_objSet, if_pos rfl]
    cases sandbox with
    | false => rfl
    | true => rfl

/-- Witness for apply_then_get_returns_exact_credentials, at an empty root in
sandbox mode. -/
theorem apply_then_get_witness :
    get_env_config (update_env_config_with_options false
      ⟨FileContent.absent, FileContent.absent, FileContent.absent, FileContent.absent,
        none, none⟩ "tok" "url" true).2 =
    Except.ok [("ANTHROPIC_API_KEY", "tok"), ("ANTHROPIC_AUTH_TOKEN", "tok"),
      ("ANTHROPIC_BASE_URL", "url"), ("IS_SANDBOX", "1")] :=
  apply_then_get_returns_exact_credentials
    ⟨FileContent.absent, FileContent.absent, FileContent.absent, FileContent.absent,
      none, none⟩
    (update_env_config_with_options false
      ⟨FileContent.absent, FileContent.absent, FileContent.absent, FileContent.absent,
        none, none⟩ "tok" "url" true).2 "tok" "url" true true rfl

/-- C2: on a pre-existing primary document that is a JSON object, applying
credentials keeps every top-level key other than env at its old value and
replaces the env entry wholesale with the new credential block. -/
theorem update_preserves_siblings_and_replaces_env
    (fs : FSState) (root : List (String × Json)) (token base_url : String) (sandbox : Bool)
    (h : fs.settingsLocal = FileContent.valid (Json.obj root)) :
    ∃ (fs' : FSState) (root' : List (String × Json)),
      update_env_config_with_options false fs token base_url sandbox =
        (Except.ok true, fs') ∧
      fs'.settingsLocal = FileContent.valid (Json.obj root') ∧
      (∀ k, k ≠ "env" → objGet root' k = objGet root k) ∧
      objGet root' "env" = some (build_env_config token base_url sandbox) := by
  refine ⟨{ fs with
      settingsLocal := FileContent.valid
        (Json.obj (objSet root "env" (build_env_config token base_url sandbox))),
      claudeLocalMd := some CLAUDE_LOCAL_MD_CONTENT },
    objSet root "env" (build_env_config token base_url sandbox), ?_, rfl, ?_, ?_⟩
  · unfold update_env_config_with_options read_settings
    rw [h]
    rfl
  · intro k hk
    rw [objGet_objSet, if_neg (fun he => hk he.symm)]
  · rw [objGet_objSet, if_pos rfl]

/-- Witness for update_preserves_siblings_and_replaces_env: a primary file
with a sibling key foo and an old env block. -/
theorem update_preserves_siblings_witness :
    ∃ (fs' : FSState) (root' : List (String × Json)),
      update_env_config_with_options false
        ⟨FileContent.valid (Json.obj [("foo", Json.str "bar"),
            ("env", Json.obj [("OLD", Json.str "x")])]),
          FileContent.absent, FileContent.absent, FileContent.absent, none, none⟩
        "tok" "url" false = (Except.ok true, fs') ∧
      fs'.settingsLocal = FileContent.valid (Json.obj root') ∧
      (∀ k, k ≠ "env" → objGet root' k =
        objGet [("foo", Json.str "bar"), ("env", Json.obj [("OLD", Json.str "x")])] k) ∧
      objGet root' "env" = some (build_env_config "tok" "url" false) :=
  update_preserves_siblings_and_replaces_env _
    [("foo", Json.str "bar"), ("env", Json.obj [("OLD", Json.str "x")])] "tok" "url" false rfl

/-- C7: after every successful credential application the template file
CLAUDE.local.md at the root holds exactly the fixed payload, whatever file
content was there before the call. -/
theorem template_provisioned_after_update
    (fs fs' : FSState) (token base_url : String) (sandbox b : Bool)
    (h : update_env_config_with_options false fs token base_url sandbox =
      (Except.ok b, fs')) :
    fs'.claudeLocalMd = some CLAUDE_LOCAL_MD_CONTENT := by
  unfold update_env_config_with_options at h
  cases hr : read_settings fs with
  | error e =>
    rw [hr] at h
    simp at h
  | ok s0 =>
    rw [hr] at h
    simp only [copy_claude_local_md, write_settings, if_neg Bool.false_ne_true,
      Prod.mk.injEq] at h
    obtain ⟨hb, hfs⟩ := h
    rw [← hfs]

/-- Witness for template_provisioned_after_update: a pre-existing template
file with different content is overwritten. -/
theorem template_provisioned_witness :
    (update_env_config_with_options false
      ⟨FileContent.absent, FileContent.absent, FileContent.absent, FileContent.absent,
        none, some "stale content"⟩ "tok" "url" false).2.claudeLocalMd =
      some CLAUDE_LOCAL_MD_CONTENT :=
  template_provisioned_after_update
    ⟨FileContent.absent, FileContent.absent, FileContent.absent, FileContent.absent,
      none, some "stale content"⟩
    (update_env_config_with_options false
      ⟨FileContent.absent, FileContent.absent, FileContent.absent, FileContent.absent,
        none, some "stale content"⟩ "tok" "url" false).2 "tok" "url" false true rfl

/-- C8: the two writes of update_env_config_with_options are not atomic.
When the template provisioning step fails after the settings write, the call
returns an error, the template file is untouched, and yet the primary
settings file already holds the new credential block; nothing is rolled
back. -/
theorem update_not_atomic_on_template_failure
    (fs : FSState) (settings0 : Json) (token base_url : String) (sandbox : Bool)
    (hread : read_settings fs = Except.ok settings0) :
    (update_env_config_with_options true fs token base_url sandbox).1 =
      Except.error () ∧
    (update_env_config_with_options true fs token base_url sandbox).2.claudeLocalMd =
      fs.claudeLocalMd ∧
    ∃ root' : List (String × Json),
      (update_env_config_with_options true fs token base_url sandbox).2.settingsLocal =
        FileContent.valid (Json.obj root') ∧
      objGet root' "env" = some (build_env_config token base_url sandbox) := by
  cases settings0 <;>
    (unfold update_env_config_with_options
     rw [hread]
     exact ⟨rfl, rfl, _, rfl, by rw [objGet_objSet, if_pos rfl]⟩)

/-- Witness for update_not_atomic_on_template_failure: with an injected
template write failure on an empty root, the call errors out. -/
theorem update_not_atomic_witness :
    (update_env_config_with_options true
      ⟨FileContent.absent, FileContent.absent, FileContent.absent, FileContent.absent,
        none, none⟩ "tok" "url" false).1 = Except.error () :=
  (update_not_atomic_on_template_failure
    ⟨FileContent.absent, FileContent.absent, FileContent.absent, FileContent.absent,
      none, none⟩ (Json.obj []) "tok" "url" false rfl).1

/-- C9: whenever update_env_config_with_options or clear_env_config returns
successfully, the returned Boolean is true; no path returns a successful
false. -/
theorem success_implies_true :
    (∀ (tfail : Bool) (fs : FSState) (token base_url : String) (sandbox b : Bool)
      (fs' : FSState),
      update_env_config_with_options tfail fs token base_url sandbox =
        (Except.ok b, fs') → b = true) ∧
    (∀ (fs : FSState) (b : Bool) (fs' : FSState),
      clear_env_config fs = some (Except.ok b, fs') → b = true) := by
  constructor
  · intro tfail fs token base_url sandbox b fs' h
    unfold update_env_config_with_options at h
    cases hr : read_settings fs with
    | error e =>
      rw [hr] at h
      simp at h
    | ok s0 =>
      rw [hr] at h
      unfold copy_claude_local_md at h
      cases tfail with
      | true => simp at h
      | false =>
        simp only [if_neg Bool.false_ne_true, Prod.mk.injEq, Except.ok.injEq] at h
        exact h.1.symm
  · intro fs b fs' h
    unfold clear_env_config at h
    cases hr : read_settings fs with
    | error e =>
      rw [hr] at h
      simp at h
    | ok s0 =>
      rw [hr] at h
      cases hc : clear_env_settings s0 with
      | none => simp [hc] at h
      | some doc =>
        simp only [hc, Option.some.injEq, Prod.mk.injEq, Except.ok.injEq] at h
        exact h.1.symm

/-- Witness for success_implies_true, applied to a concrete successful
update call. -/
theorem success_implies_true_witness : true = true :=
  success_implies_true.1 false
    ⟨FileContent.absent, FileContent.absent, FileContent.absent, FileContent.absent,
      none, none⟩ "tok" "url" false true
    (update_env_config_with_options false
      ⟨FileContent.absent, FileContent.absent, FileContent.absent, FileContent.absent,
        none, none⟩ "tok" "url" false).2 rfl

/-- C6: on a loaded document with an env object, clear_env_config removes
exactly the three credential keys from env, leaves every other env entry
untouched, drops the env key itself from the document exactly when env
became empty, preserves every other top-level key, writes the document back
(in all cases, also when nothing had an env object), and never touches the
template file or any other file. -/
theorem clear_env_config_spec :
    (∀ (fs : FSState) (root envFields : List (String × Json)),
      read_settings fs = Except.ok (Json.obj root) →
      objGet root "env" = some (Json.obj envFields) →
      ∃ root' : List (String × Json),
        clear_env_config fs = some (Except.ok true,
          { fs with settingsLocal := FileContent.valid (Json.obj root') }) ∧
        (∀ k, k ≠ "env" → objGet root' k = objGet root k) ∧
        (∀ k, k = "ANTHROPIC_API_KEY" ∨ k = "ANTHROPIC_AUTH_TOKEN" ∨
            k = "ANTHROPIC_BASE_URL" →
          objGet (remove_cred_keys envFields) k = none) ∧
        (∀ k, k ≠ "ANTHROPIC_API_KEY" → k ≠ "ANTHROPIC_AUTH_TOKEN" →
            k ≠ "ANTHROPIC_BASE_URL" →
          objGet (remove_cred_keys envFields) k = objGet envFields k) ∧
        (if (remove_cred_keys envFields).isEmpty then objGet root' "env" = none
         else objGet root' "env" = some (Json.obj (remove_cred_keys envFields)))) ∧
    (∀ (fs : FSState) (settings : Json), read_settings fs = Except.ok settings →
      ∃ doc : Json, clear_env_settings settings = some doc ∧
        clear_env_config fs = some (Except.ok true,
          { fs with settingsLocal := FileContent.valid doc })) := by
  constructor
  · intro fs root envFields hread henv
    have hcredNone : ∀ k, k = "ANTHROPIC_API_KEY" ∨ k = "ANTHROPIC_AUTH_TOKEN" ∨
        k = "ANTHROPIC_BASE_URL" → objGet (remove_cred_keys envFields) k = none := by
      rintro k (rfl | rfl | rfl) <;> simp [remove_cred_keys, objGet_objRemove]
    have hothers : ∀ k, k ≠ "ANTHROPIC_API_KEY" → k ≠ "ANTHROPIC_AUTH_TOKEN" →
        k ≠ "ANTHROPIC_BASE_URL" →
        objGet (remove_cred_keys envFields) k = objGet envFields k := by
      intro k h1 h2 h3
      unfold remove_cred_keys
      rw [objGet_objRemove, if_neg (fun he => h3 he.symm),
        objGet_objRemove, if_neg (fun he => h2 he.symm),
        objGet_objRemove, if_neg (fun he => h1 he.symm)]
    by_cases hp : (remove_cred_keys envFields).isEmpty
    · refine ⟨objRemove (objSet root "env" (Json.obj (remove_cred_keys envFields))) "env",
        ?_, ?_, hcredNone, hothers, ?_⟩
      · have hcs : clear_env_settings (Json.obj root) =
            some (Json.obj (objRemove (objSet root "env"
              (Json.obj (remove_cred_keys envFields))) "env")) := by
          simp [clear_env_settings, jsonGet, henv, hp, jsonSetEnv]
        simp [clear_env_config, hread, hcs, write_settings]
      · intro k hk
        rw [objGet_objRemove, if_neg (fun he => hk he.symm),
          objGet_objSet, if_neg (fun he => hk he.symm)]
      · rw [if_pos hp, objGet_objRemove, if_pos rfl]
    · refine ⟨objSet root "env" (Json.obj (remove_cred_keys envFields)),
        ?_, ?_, hcredNone, hothers, ?_⟩
      · have hcs : clear_env_settings (Json.obj root) =
            some (Json.obj (objSet root "env"
              (Json.obj (remove_cred_keys envFields)))) := by
          simp [clear_env_settings, jsonGet, henv, hp, jsonSetEnv]
        simp [clear_env_config, hread, hcs, write_settings]
      · intro k hk
        rw [objGet_objSet, if_neg (fun he => hk he.symm)]
      · rw [if_neg hp, objGet_objSet, if_pos rfl]
  · intro fs settings hread
    obtain ⟨doc, hd⟩ := clear_env_settings_isSome settings
    exact ⟨doc, hd, by simp [clear_env_config, hread, hd, write_settings]⟩

/-- Witness for clear_env_config_spec: an env block holding one credential
key and one unrelated key; the credential key goes away, the other one and
the env entry survive. -/
theorem clear_env_config_spec_witness :
    ∃ root' : List (String × Json),
      clear_env_config ⟨FileContent.valid (Json.obj [("env", Json.obj
          [("ANTHROPIC_API_KEY", Json.str "t"), ("keep", Json.str "x")])]),
        FileContent.absent, FileContent.absent, FileContent.absent, none, none⟩ =
        some (Except.ok true, ⟨FileContent.valid (Json.obj root'),
          FileContent.absent, FileContent.absent, FileContent.absent, none, none⟩) ∧
      (∀ k, k ≠ "env" → objGet root' k =
        objGet [("env", Json.obj [("ANTHROPIC_API_KEY", Json.str "t"),
          ("keep", Json.str "x")])] k) ∧
      (∀ k, k = "ANTHROPIC_API_KEY" ∨ k = "ANTHROPIC_AUTH_TOKEN" ∨
          k = "ANTHROPIC_BASE_URL" →
        objGet (remove_cred_keys [("ANTHROPIC_API_KEY", Json.str "t"),
          ("keep", Json.str "x")]) k = none) ∧
      (∀ k, k ≠ "ANTHROPIC_API_KEY" → k ≠ "ANTHROPIC_AUTH_TOKEN" →
          k ≠ "ANTHROPIC_BASE_URL" →
        objGet (remove_cred_keys [("ANTHROPIC_API_KEY", Json.str "t"),
          ("keep", Json.str "x")]) k =
          objGet [("ANTHROPIC_API_KEY", Json.str "t"), ("keep", Json.str "x")] k) ∧
      (if (remove_cred_keys [("ANTHROPIC_API_KEY", Json.str "t"),
          ("keep", Json.str "x")]).isEmpty
       then objGet root' "env" = none
       else objGet root' "env" = some (Json.obj (remove_cred_keys
        [("ANTHROPIC_API_KEY", Json.str "t"), ("keep", Json.str "x")]))) :=
  clear_env_config_spec.1
    ⟨FileContent.valid (Json.obj [("env", Json.obj
        [("ANTHROPIC_API_KEY", Json.str "t"), ("keep", Json.str "x")])]),
      FileContent.absent, FileContent.absent, FileContent.absent, none, none⟩
    [("env", Json.obj [("ANTHROPIC_API_KEY", Json.str "t"), ("keep", Json.str "x")])]
    [("ANTHROPIC_API_KEY", Json.str "t"), ("keep", Json.str "x")] rfl rfl

end ClaudeConfig
